import Mathlib

/-!
Shallow embedding of the `ccl` launcher (patdx/ccl, `main.go`), covering the
argument resolver `parseFlags`, config selection, environment composition and
the yolo flag expansion.

The source file contains two historical program variants; the claims under
verification target the hand-rolled resolver variant (the second
`package main` block: `parseFlags` and the `main` that follows it), which is
the variant exercised by `main_test.go`.  Go maps (`map[string]Config`,
`map[string]string`) are embedded as association lists with unique keys;
Go map indexing is `lookupMap`.  Go's `arg[0]` on an empty string panics
("index out of range"); the embedding makes that branch an explicit
`indexOutOfRange` error so the panic is observable.
-/

namespace Ccl

/-- Mirrors `type Config struct { Env map[string]string }`; the map is an
association list with unique keys. -/
structure Config where
  env : List (String × String)
deriving DecidableEq, Repr

/-- Mirrors `type Configs struct { Default Config; Configs map[string]Config }`
from the hand-rolled variant. -/
structure Configs where
  defaultConfig : Config
  configs : List (String × Config)
deriving DecidableEq, Repr

/-- Go map indexing `m[k]` for a string-keyed map embedded as an association
list: the unique entry for `k`, if present. -/
def lookupMap {β : Type} (k : String) : List (String × β) → Option β
  | [] => none
  | p :: tl => if k = p.1 then some p.2 else lookupMap k tl

/-- Errors that abort `parseFlags`: the explicit
`fmt.Errorf("--config requires a value")` and the runtime panic raised by
`arg[0]` when `arg` is the empty string. -/
inductive ParseError where
  | missingValue (msg : String)
  | indexOutOfRange
deriving DecidableEq, Repr

/-- Result of `parseFlags`: on success the named return values
`(configName, yolo, verbose, remainingArgs)`, otherwise the error. -/
inductive ParseResult where
  | ok (configName : String) (yolo : Bool) (verbose : Bool)
      (remainingArgs : List String)
  | error (e : ParseError)
deriving DecidableEq, Repr

/-- The loop of `parseFlags` (main.go lines 461-498), with the mutable locals
`configName`, `yolo`, `verbose` passed as accumulators.  Every `break` of the
Go loop sets `remainingArgs` to a suffix of the argument list and returns;
falling off the end returns the accumulators with an empty `remainingArgs`. -/
def scanArgs (cfgs : Configs) : List String → String → Bool → Bool → ParseResult
  | [], cn, y, v => .ok cn y v []
  | arg :: rest, cn, y, v =>
    if arg = "--config" ∨ arg = "-c" then
      match rest with
      | [] => .error (.missingValue "--config requires a value")
      | val :: rest' => scanArgs cfgs rest' val y v
    else if arg = "--yolo" ∨ arg = "-y" then
      scanArgs cfgs rest cn true v
    else if arg = "--verbose" then
      scanArgs cfgs rest cn y true
    else if arg = "--" then
      .ok cn y v rest
    else
      match arg.data with
      | [] => .error .indexOutOfRange
      | c :: _ =>
        if c ≠ '-' ∧ cn = "" then
          if (lookupMap arg cfgs.configs).isSome then
            scanArgs cfgs rest arg y v
          else
            .ok cn y v (arg :: rest)
        else
          .ok cn y v (arg :: rest)

/-- `func parseFlags(args []string, configs *Configs)` of the hand-rolled
variant, entered with all named return values at their zero values. -/
def parseFlags (args : List String) (cfgs : Configs) : ParseResult :=
  scanArgs cfgs args "" false false

/-- A `Configs` value whose named-config map is empty. -/
def emptyConfigs : Configs := { defaultConfig := { env := [] }, configs := [] }

/-- A `Configs` value knowing the single named config `"zai"`, as in
`main_test.go`. -/
def cfgZai : Configs :=
  { defaultConfig := { env := [] }, configs := [("zai", { env := [] })] }

/-- True exactly on the five reserved launcher flag spellings tested by the
scan loop (`--config`, `-c`, `--yolo`, `-y`, `--verbose`). -/
def isReservedFlag (arg : String) : Bool :=
  arg == "--config" || arg == "-c" || arg == "--yolo" || arg == "-y" || arg == "--verbose"

/-- True exactly when the scan loop consumes `arg` (rather than stopping or
panicking) in a state where the accumulated config name is `cn`: a reserved
flag, the sentinel, or a positional config-name match. -/
def consumesToken (cfgs : Configs) (cn arg : String) : Bool :=
  isReservedFlag arg || arg == "--" ||
    (match arg.data with
     | [] => false
     | c :: _ => (c != '-') && (cn == "") && (lookupMap arg cfgs.configs).isSome)

/-- Result of the config-selection step of the hand-rolled `main`
(main.go lines 560-577): either the chosen `Config`, or the fatal
"Config not found" report carrying the requested name and the named-config
names that the code lists on stderr before `os.Exit(1)`. -/
inductive SelectResult where
  | ok (c : Config)
  | configNotFound (requested : String) (known : List String)
deriving DecidableEq, Repr

/-- Config selection of the hand-rolled `main` (main.go lines 560-577):
start from `configs.Default`, and if `configName` is non-empty look it up in
`configs.Configs`, failing fatally when absent.  The listing printed on
failure ranges over the named-config map only. -/
def selectConfig (configName : String) (cfgs : Configs) : SelectResult :=
  if configName = "" then .ok cfgs.defaultConfig
  else
    match lookupMap configName cfgs.configs with
    | some c => .ok c
    | none => .configNotFound configName (cfgs.configs.map Prod.fst)

/-- One pass of `for key, value := range env { envMap[key] = value }`
(main.go lines 652-682), with the Go map `envMap` embedded as a function
`String → Option String`. -/
def envInsertAll (base : String → Option String)
    (entries : List (String × String)) : String → Option String :=
  entries.foldl (fun m kv => fun k => if k = kv.1 then some kv.2 else m k) base

/-- Environment composition of `main` (main.go lines 637-688): seed from the
process environment, overlay `configs.Default.Env`, then overlay the selected
config's env. -/
def composeEnv (penv : String → Option String)
    (denv senv : List (String × String)) : String → Option String :=
  envInsertAll (envInsertAll penv denv) senv

/-- Option fallback: the first mapping if present, otherwise the second. -/
def orD (o : Option String) (b : Option String) : Option String :=
  match o with
  | some v => some v
  | none => b

/-- Building `transformedArgs` in `main` (main.go lines 579-589): prepend the
expansion of `--yolo` when set, then append the resolver's remaining args. -/
def buildTransformedArgs (yolo : Bool) (remainingArgs : List String) : List String :=
  (if yolo then ["--dangerously-skip-permissions"] else []) ++ remainingArgs

/-- Process environment of the §8 composition example. -/
def examplePenv : String → Option String := fun k => if k = "A" then some "1" else none

/-- Default-config env of the §8 composition example. -/
def exampleDenv : List (String × String) := [("A", "2"), ("B", "3")]

/-- Selected-config env of the §8 composition example. -/
def exampleSenv : List (String × String) := [("B", "4"), ("C", "5")]

/-- Expected composed environment of the §8 composition example. -/
def exampleResult : String → Option String := fun k =>
  if k = "A" then some "2" else if k = "B" then some "4"
  else if k = "C" then some "5" else none

/-- A token whose first character is not `'-'` is none of the six reserved
spellings, all of which start with `'-'`. -/
theorem ne_reserved_of_head {arg : String} {c : Char} {cs : List Char}
    (hd : arg.data = c :: cs) (hne : c ≠ '-') :
    arg ≠ "--config" ∧ arg ≠ "-c" ∧ arg ≠ "--yolo" ∧ arg ≠ "-y" ∧
      arg ≠ "--verbose" ∧ arg ≠ "--" := by
  refine ⟨?_, ?_, ?_, ?_, ?_, ?_⟩ <;>
    (intro h; subst h; injection hd with h1 _; exact hne h1.symm)

/-- Unfolding lemma: the sentinel stops the scan and forwards the tail. -/
theorem scanArgs_sentinel (cfgs : Configs) (cn : String) (y v : Bool)
    (rest : List String) :
    scanArgs cfgs ("--" :: rest) cn y v = .ok cn y v rest := by
  rw [scanArgs.eq_def]; simp

/-- Unfolding lemma: `--config`/`-c` as the last token is a missing-value
error. -/
theorem scanArgs_config_end (cfgs : Configs) (cn : String) (y v : Bool)
    (arg : String) (h : arg = "--config" ∨ arg = "-c") :
    scanArgs cfgs [arg] cn y v
      = .error (.missingValue "--config requires a value") := by
  rcases h with h | h <;> subst h <;> (rw [scanArgs.eq_def]; simp)

/-- Unfolding lemma: `--config`/`-c` followed by a value consumes both tokens
and continues with the value as the config name. -/
theorem scanArgs_config_val (cfgs : Configs) (cn : String) (y v : Bool)
    (arg val : String) (rest : List String) (h : arg = "--config" ∨ arg = "-c") :
    scanArgs cfgs (arg :: val :: rest) cn y v = scanArgs cfgs rest val y v := by
  rcases h with h | h <;> subst h <;> (rw [scanArgs.eq_def]; simp)

/-- Unfolding lemma: a bare word matching a named config while the config name
is still unset is consumed as the config name. -/
theorem scanArgs_positional (cfgs : Configs) (y v : Bool) (arg : String)
    (rest : List String) (c : Char) (cs : List Char) (hd : arg.data = c :: cs)
    (hne : c ≠ '-') (hsome : (lookupMap arg cfgs.configs).isSome = true) :
    scanArgs cfgs (arg :: rest) "" y v = scanArgs cfgs rest arg y v := by
  obtain ⟨h1, h2, h3, h4, h5, h6⟩ := ne_reserved_of_head hd hne
  rw [scanArgs.eq_def]
  simp only [hd]
  rw [if_neg (not_or.mpr ⟨h1, h2⟩), if_neg (not_or.mpr ⟨h3, h4⟩), if_neg h5,
    if_neg h6]
  simp [hne, hsome]

/-- Unfolding lemma: a nonempty token that is no reserved flag, not the
sentinel, and not a positional config-name match stops the scan, forwarding
itself and the whole tail. -/
theorem scanArgs_stop (cfgs : Configs) (cn : String) (y v : Bool)
    (arg : String) (rest : List String) (c : Char) (cs : List Char)
    (hd : arg.data = c :: cs) (hres : isReservedFlag arg = false)
    (h6 : arg ≠ "--")
    (hstop : ¬(c ≠ '-' ∧ cn = "") ∨ lookupMap arg cfgs.configs = none) :
    scanArgs cfgs (arg :: rest) cn y v = .ok cn y v (arg :: rest) := by
  simp only [isReservedFlag, Bool.or_eq_false_iff, beq_eq_false_iff_ne, ne_eq] at hres
  obtain ⟨⟨⟨⟨h1, h2⟩, h3⟩, h4⟩, h5⟩ := hres
  rw [scanArgs.eq_def]
  simp only [hd]
  rw [if_neg (not_or.mpr ⟨h1, h2⟩), if_neg (not_or.mpr ⟨h3, h4⟩), if_neg h5,
    if_neg h6]
  by_cases hpos : c ≠ '-' ∧ cn = ""
  · rcases hstop with hstop | hstop
    · exact absurd hpos hstop
    · rw [if_pos hpos, if_neg (by simp [hstop])]
  · rw [if_neg hpos]

/-- A string with empty character data is the empty string. -/
theorem eq_empty_of_data_nil {arg : String} (hd : arg.data = []) : arg = "" :=
  String.ext (hd.trans rfl)

/-- The remaining-args component of any successful scan is a contiguous suffix
of the scanned argument list (strong induction on the list length, since the
`--config` branch consumes two tokens at once). -/
theorem scanArgs_suffix :
    ∀ (n : Nat) (args : List String), args.length ≤ n →
    ∀ (cfgs : Configs) (cn : String) (y v : Bool) (cn' : String) (y' v' : Bool)
      (rem : List String),
      scanArgs cfgs args cn y v = .ok cn' y' v' rem → List.IsSuffix rem args := by
  intro n
  induction n with
  | zero =>
    intro args hlen cfgs cn y v cn' y' v' rem h
    rw [List.length_eq_zero.mp (Nat.le_zero.mp hlen)] at h ⊢
    rw [scanArgs.eq_def] at h
    simp only at h
    injection h with _ _ _ h4
    rw [← h4]
  | succ n ih =>
    intro args hlen cfgs cn y v cn' y' v' rem h
    cases args with
    | nil =>
      rw [scanArgs.eq_def] at h
      simp only at h
      injection h with _ _ _ h4
      rw [← h4]
    | cons arg rest =>
      rw [scanArgs.eq_def] at h
      simp only at h
      by_cases hc1 : arg = "--config" ∨ arg = "-c"
      · rw [if_pos hc1] at h
        cases rest with
        | nil => simp at h
        | cons val rest' =>
          simp only at h
          have hsub := ih rest' (by simp at hlen; omega) cfgs val y v cn' y' v' rem h
          exact (hsub.trans (List.suffix_cons val rest')).trans
            (List.suffix_cons arg (val :: rest'))
      · rw [if_neg hc1] at h
        by_cases hc2 : arg = "--yolo" ∨ arg = "-y"
        · rw [if_pos hc2] at h
          exact ((ih rest (by simp at hlen; omega) cfgs cn true v cn' y' v' rem
            h).trans (List.suffix_cons arg rest))
        · rw [if_neg hc2] at h
          by_cases hc3 : arg = "--verbose"
          · rw [if_pos hc3] at h
            exact ((ih rest (by simp at hlen; omega) cfgs cn y true cn' y' v' rem
              h).trans (List.suffix_cons arg rest))
          · rw [if_neg hc3] at h
            by_cases hc4 : arg = "--"
            · rw [if_pos hc4] at h
              injection h with _ _ _ h4
              rw [← h4]
              exact List.suffix_cons arg rest
            · rw [if_neg hc4] at h
              rcases hdata : arg.data with _ | ⟨c, cs⟩
              · rw [hdata] at h
                simp at h
              · rw [hdata] at h
                simp only at h
                by_cases hpos : c ≠ '-' ∧ cn = ""
                · rw [if_pos hpos] at h
                  by_cases hs : (lookupMap arg cfgs.configs).isSome = true
                  · rw [if_pos hs] at h
                    exact ((ih rest (by simp at hlen; omega) cfgs arg y v cn' y' v'
                      rem h).trans (List.suffix_cons arg rest))
                  · rw [if_neg hs] at h
                    injection h with _ _ _ h4
                    rw [← h4]
                · rw [if_neg hpos] at h
                  injection h with _ _ _ h4
                  rw [← h4]

/-- The scan never reaches the out-of-bounds branch when no scanned token is
the empty string (strong induction on the list length). -/
theorem scanArgs_no_panic :
    ∀ (n : Nat) (args : List String), args.length ≤ n →
    ∀ (cfgs : Configs) (cn : String) (y v : Bool), "" ∉ args →
      scanArgs cfgs args cn y v ≠ .error .indexOutOfRange := by
  intro n
  induction n with
  | zero =>
    intro args hlen cfgs cn y v _hmem
    rw [List.length_eq_zero.mp (Nat.le_zero.mp hlen), scanArgs.eq_def]
    simp
  | succ n ih =>
    intro args hlen cfgs cn y v hmem
    cases args with
    | nil => rw [scanArgs.eq_def]; simp
    | cons arg rest =>
      rw [scanArgs.eq_def]
      simp only
      by_cases hc1 : arg = "--config" ∨ arg = "-c"
      · rw [if_pos hc1]
        cases rest with
        | nil => simp
        | cons val rest' =>
          simp only
          exact ih rest' (by simp at hlen; omega) cfgs val y v
            (by simp at hmem ⊢; tauto)
      · rw [if_neg hc1]
        by_cases hc2 : arg = "--yolo" ∨ arg = "-y"
        · rw [if_pos hc2]
          exact ih rest (by simp at hlen; omega) cfgs cn true v
            (by simp at hmem; tauto)
        · rw [if_neg hc2]
          by_cases hc3 : arg = "--verbose"
          · rw [if_pos hc3]
            exact ih rest (by simp at hlen; omega) cfgs cn y true
              (by simp at hmem; tauto)
          · rw [if_neg hc3]
            by_cases hc4 : arg = "--"
            · rw [if_pos hc4]; simp
            · rw [if_neg hc4]
              rcases hdata : arg.data with _ | ⟨c, cs⟩
              · exact absurd (eq_empty_of_data_nil hdata) (by simp at hmem; tauto)
              · simp only
                by_cases hpos : c ≠ '-' ∧ cn = ""
                · rw [if_pos hpos]
                  by_cases hs : (lookupMap arg cfgs.configs).isSome = true
                  · rw [if_pos hs]
                    exact ih rest (by simp at hlen; omega) cfgs arg y v
                      (by simp at hmem; tauto)
                  · rw [if_neg hs]; simp
                · rw [if_neg hpos]; simp

/-- Evaluating `envInsertAll` at a key: the last entry written for that key
wins, otherwise the base mapping is unchanged. -/
theorem envInsertAll_eq (entries : List (String × String))
    (base : String → Option String) (k : String) :
    envInsertAll base entries k = orD (lookupMap k entries.reverse) (base k) := by
  induction entries generalizing base with
  | nil => simp [envInsertAll, lookupMap, orD]
  | cons p tl ih =>
    have happ : ∀ (l1 l2 : List (String × String)),
        lookupMap k (l1 ++ l2) = orD (lookupMap k l1) (lookupMap k l2) := by
      intro l1 l2
      induction l1 with
      | nil => simp [lookupMap, orD]
      | cons q tq ihq =>
        by_cases hq : k = q.1 <;> simp [lookupMap, hq, orD, ihq]
    show envInsertAll (fun k' => if k' = p.1 then some p.2 else base k') tl k = _
    rw [ih, List.reverse_cons, happ]
    cases hl : lookupMap k tl.reverse with
    | some v => simp [orD]
    | none =>
      by_cases hp : k = p.1 <;> simp [orD, lookupMap, hp]

/-- C1: the resolver scans left to right with no backtracking: a token that
fails every recognized-token test halts the scan and is forwarded, together
with all remaining tokens, verbatim and in order; and
`["--yolo", "chat", "--verbose"]` against an empty known-config-name set
yields yolo=true, verbose=false and pass-through starting with "chat". -/
theorem parseFlags_stops_at_first_unrecognized :
    (∀ (cfgs : Configs) (cn : String) (y v : Bool) (arg : String)
        (rest : List String), arg ≠ "" → consumesToken cfgs cn arg = false →
        scanArgs cfgs (arg :: rest) cn y v = .ok cn y v (arg :: rest)) ∧
    parseFlags ["--yolo", "chat", "--verbose"] emptyConfigs
      = .ok "" true false ["chat", "--verbose"] := by
  constructor
  · intro cfgs cn y v arg rest hne hcons
    rcases hdata : arg.data with _ | ⟨c, cs⟩
    · exact absurd (eq_empty_of_data_nil hdata) hne
    · simp only [consumesToken, hdata, Bool.or_eq_false_iff] at hcons
      obtain ⟨⟨hres, hsent⟩, hmatch⟩ := hcons
      apply scanArgs_stop cfgs cn y v arg rest c cs hdata hres (by simpa using hsent)
      by_cases hpos : c ≠ '-' ∧ cn = ""
      · rcases hlk : lookupMap arg cfgs.configs with _ | cfg
        · exact Or.inr rfl
        · exfalso
          rw [hlk] at hmatch
          simp [hpos.1, hpos.2] at hmatch
      · exact Or.inl hpos
  · decide

/-- C1 witness: the unrecognized bare word "chat" halts the scan with itself
and the rest forwarded. -/
theorem parseFlags_stops_at_first_unrecognized_witness :
    scanArgs emptyConfigs ["chat", "--verbose"] "" true false
      = .ok "" true false ["chat", "--verbose"] :=
  parseFlags_stops_at_first_unrecognized.1 emptyConfigs "" true false "chat"
    ["--verbose"] (by decide) (by decide)

/-- C2: positional config-name disambiguation: while the config name is unset
and no flag or sentinel matched, a non-dash token matching a known config name
is consumed as the config name and excluded from the pass-through list; any
other unmatched token stops the scan and is forwarded with the whole tail. -/
theorem parseFlags_positional_config_disambiguation :
    (∀ (cfgs : Configs) (y v : Bool) (arg : String) (rest : List String)
        (c : Char) (cs : List Char), arg.data = c :: cs → c ≠ '-' →
        (lookupMap arg cfgs.configs).isSome = true →
        scanArgs cfgs (arg :: rest) "" y v = scanArgs cfgs rest arg y v) ∧
    (∀ (cfgs : Configs) (y v : Bool) (arg : String) (rest : List String)
        (c : Char) (cs : List Char), arg.data = c :: cs →
        isReservedFlag arg = false → arg ≠ "--" →
        (c = '-' ∨ lookupMap arg cfgs.configs = none) →
        scanArgs cfgs (arg :: rest) "" y v = .ok "" y v (arg :: rest)) := by
  constructor
  · intro cfgs y v arg rest c cs hdata hne hsome
    exact scanArgs_positional cfgs y v arg rest c cs hdata hne hsome
  · intro cfgs y v arg rest c cs hdata hres h6 hcase
    apply scanArgs_stop cfgs "" y v arg rest c cs hdata hres h6
    rcases hcase with hc | hc
    · exact Or.inl (by simp [hc])
    · exact Or.inr hc

/-- C2 witness: "zai" is consumed as the config name against `cfgZai`, and the
unknown dash token "-x" stops the scan and is forwarded. -/
theorem parseFlags_positional_config_disambiguation_witness :
    scanArgs cfgZai ["zai", "chat"] "" false false
        = scanArgs cfgZai ["chat"] "zai" false false ∧
      scanArgs cfgZai ["-x"] "" false false = .ok "" false false ["-x"] :=
  ⟨parseFlags_positional_config_disambiguation.1 cfgZai false false "zai" ["chat"]
      'z' ['a', 'i'] rfl (by decide) (by decide),
   parseFlags_positional_config_disambiguation.2 cfgZai false false "-x" [] '-'
      ['x'] rfl (by decide) (by decide) (Or.inl rfl)⟩

/-- C3: environment composition precedence: the final environment is the
process environment overlaid by the default env and then the selected env,
last writer per key wins, no key is ever removed, and the §8 example composes
to exactly `{"A":"2","B":"4","C":"5"}`. -/
theorem composeEnv_precedence :
    (∀ (penv : String → Option String) (denv senv : List (String × String))
        (k : String),
        composeEnv penv denv senv k
          = orD (lookupMap k senv.reverse) (orD (lookupMap k denv.reverse) (penv k))) ∧
    (∀ (penv : String → Option String) (denv senv : List (String × String))
        (k : String), (penv k).isSome = true →
        (composeEnv penv denv senv k).isSome = true) ∧
    (∀ k : String,
        composeEnv examplePenv exampleDenv exampleSenv k = exampleResult k) := by
  refine ⟨?_, ?_, ?_⟩
  · intro penv denv senv k
    rw [composeEnv, envInsertAll_eq, envInsertAll_eq]
  · intro penv denv senv k hk
    rw [composeEnv, envInsertAll_eq, envInsertAll_eq]
    rcases h1 : lookupMap k senv.reverse with _ | w1
    · rcases h2 : lookupMap k denv.reverse with _ | w2
      · simpa [orD] using hk
      · simp [orD]
    · simp [orD]
  · intro k
    by_cases hA : k = "A" <;> by_cases hB : k = "B" <;> by_cases hC : k = "C" <;>
      simp [composeEnv, envInsertAll, examplePenv, exampleDenv, exampleSenv,
        exampleResult, hA, hB, hC]

/-- C3 witness: at the key "A" of the §8 example the process environment is
defined and so is the composed one. -/
theorem composeEnv_precedence_witness :
    (composeEnv examplePenv exampleDenv exampleSenv "A").isSome = true :=
  composeEnv_precedence.2.1 examplePenv exampleDenv exampleSenv "A" (by decide)

/-- C4 counterexample: the hand-rolled `main` gives the literal name
`"default"` no special treatment: selecting it when no named config
`"default"` exists is a fatal "Config not found", contradicting the claim that
the error is raised only when the name differs from `"default"`. -/
theorem selectConfig_default_not_special :
    selectConfig "default" emptyConfigs = .configNotFound "default" [] := by
  decide

/-- C4 amended: `ConfigNotFound` is raised exactly when the config name is set
(non-empty) and absent from the named-config map — with no special case for
the literal `"default"`; the report carries the requested name and the
named-config names, and the default config is never silently substituted for
an unknown name. -/
theorem selectConfig_not_found_iff :
    ∀ (name : String) (cfgs : Configs),
      ((∃ r ks, selectConfig name cfgs = .configNotFound r ks) ↔
        name ≠ "" ∧ lookupMap name cfgs.configs = none) ∧
      (∀ (r : String) (ks : List String),
        selectConfig name cfgs = .configNotFound r ks →
        r = name ∧ ks = cfgs.configs.map Prod.fst) ∧
      (∀ c : Config, name ≠ "" → lookupMap name cfgs.configs = none →
        selectConfig name cfgs ≠ .ok c) := by
  intro name cfgs
  by_cases hname : name = ""
  · subst hname
    simp [selectConfig]
  · rcases hl : lookupMap name cfgs.configs with _ | cfg
    · simp [selectConfig, hname, hl]
    · simp [selectConfig, hname, hl]

/-- C4 witness: the unknown name "missing" is never answered with the default
config of `cfgZai`. -/
theorem selectConfig_not_found_iff_witness :
    selectConfig "missing" cfgZai ≠ .ok { env := [] } :=
  (selectConfig_not_found_iff "missing" cfgZai).2.2 { env := [] } (by decide)
    (by decide)

/-- C5: the sentinel `--` stops the scan immediately and every following
token, verbatim and in order, becomes the pass-through list with the sentinel
itself excluded; `["--", "--config", "x"]` gives pass-through
`["--config", "x"]` with the config name unset. -/
theorem parseFlags_sentinel_forwards_tail :
    (∀ (cfgs : Configs) (cn : String) (y v : Bool) (rest : List String),
        scanArgs cfgs ("--" :: rest) cn y v = .ok cn y v rest) ∧
    parseFlags ["--", "--config", "x"] emptyConfigs
      = .ok "" false false ["--config", "x"] :=
  ⟨scanArgs_sentinel, by decide⟩

/-- C6: `--config`/`-c` scanned as the last token fails with the
missing-value error "--config requires a value" and no partial result; with a
following token, that token is consumed as the config name and this step
raises no error. -/
theorem parseFlags_config_missing_value :
    (∀ (cfgs : Configs) (cn : String) (y v : Bool) (arg : String),
        arg = "--config" ∨ arg = "-c" →
        scanArgs cfgs [arg] cn y v
          = .error (.missingValue "--config requires a value")) ∧
    (∀ (cfgs : Configs) (cn : String) (y v : Bool) (arg val : String)
        (rest : List String), arg = "--config" ∨ arg = "-c" →
        scanArgs cfgs (arg :: val :: rest) cn y v = scanArgs cfgs rest val y v) :=
  ⟨fun cfgs cn y v arg h => scanArgs_config_end cfgs cn y v arg h,
   fun cfgs cn y v arg val rest h => scanArgs_config_val cfgs cn y v arg val rest h⟩

/-- C6 witness: `["--config"]` alone errors, and `-c` followed by a value
consumes both tokens. -/
theorem parseFlags_config_missing_value_witness :
    scanArgs emptyConfigs ["--config"] "" false false
        = .error (.missingValue "--config requires a value") ∧
      scanArgs emptyConfigs ["-c", "zai"] "" false false
        = scanArgs emptyConfigs [] "zai" false false :=
  ⟨parseFlags_config_missing_value.1 emptyConfigs "" false false "--config"
      (Or.inl rfl),
   parseFlags_config_missing_value.2 emptyConfigs "" false false "-c" "zai" []
      (Or.inr rfl)⟩

/-- C7: when yolo is true the final pass-through list is the single literal
token "--dangerously-skip-permissions" prepended to the resolver's list, and
when yolo is false the list is unchanged. -/
theorem transformedArgs_yolo_expansion :
    ∀ rem : List String,
      buildTransformedArgs true rem = "--dangerously-skip-permissions" :: rem ∧
      buildTransformedArgs false rem = rem :=
  fun _rem => ⟨rfl, rfl⟩

/-- C8 counterexample: `["zai"]` contains no recognized flag and no sentinel,
yet against a known-config set containing "zai" the resolver consumes it as
the config name: the pass-through list is empty, not the input unchanged, and
the config name is set. -/
theorem parseFlags_positional_breaks_no_launcher_claim :
    parseFlags ["zai"] cfgZai = .ok "zai" false false [] := by decide

/-- C8 amended: for every argument sequence none of whose tokens is a
recognized flag, the sentinel, the empty string, or a key of the known-config
set, the resolver returns the input sequence unchanged as pass-through and
leaves the config name unset. -/
theorem parseFlags_no_launcher_tokens_passthrough :
    ∀ (args : List String) (cfgs : Configs),
      (∀ a ∈ args, a ≠ "" ∧ isReservedFlag a = false ∧ a ≠ "--" ∧
        lookupMap a cfgs.configs = none) →
      parseFlags args cfgs = .ok "" false false args := by
  intro args cfgs h
  cases args with
  | nil => rfl
  | cons a rest =>
    obtain ⟨hne, hres, h6, hlk⟩ := h a (List.mem_cons_self a rest)
    rcases hdata : a.data with _ | ⟨c, cs⟩
    · exact absurd (eq_empty_of_data_nil hdata) hne
    · exact scanArgs_stop cfgs "" false false a rest c cs hdata hres h6 (Or.inr hlk)

/-- C8 witness: a plain downstream invocation passes through unchanged. -/
theorem parseFlags_no_launcher_tokens_passthrough_witness :
    parseFlags ["chat", "--model"] emptyConfigs
      = .ok "" false false ["chat", "--model"] :=
  parseFlags_no_launcher_tokens_passthrough ["chat", "--model"] emptyConfigs
    (by decide)

/-- C9: the hand-rolled resolver is not total over arbitrary string lists:
the empty-string token reaches `arg[0]` without a length guard, so the
out-of-bounds branch is reachable (at input `[""]`); under the precondition
that no token is empty, the out-of-bounds branch is unreachable. -/
theorem parseFlags_empty_token_panics :
    parseFlags [""] emptyConfigs = .error .indexOutOfRange ∧
    ∀ (args : List String) (cfgs : Configs), "" ∉ args →
      parseFlags args cfgs ≠ .error .indexOutOfRange :=
  ⟨by decide, fun args cfgs hmem =>
    scanArgs_no_panic args.length args le_rfl cfgs "" false false hmem⟩

/-- C9 witness: a non-empty token list does not reach the out-of-bounds
branch. -/
theorem parseFlags_empty_token_panics_witness :
    parseFlags ["chat"] emptyConfigs ≠ .error .indexOutOfRange :=
  parseFlags_empty_token_panics.2 ["chat"] emptyConfigs (by decide)

/-- C10: on every successful return the pass-through list is a contiguous
suffix of the input sequence, hence preserves the relative order and exact
bytes of every forwarded token. -/
theorem parseFlags_remaining_is_suffix :
    ∀ (args : List String) (cfgs : Configs) (cn : String) (y v : Bool)
      (rem : List String),
      parseFlags args cfgs = .ok cn y v rem → List.IsSuffix rem args :=
  fun args cfgs cn y v rem h =>
    scanArgs_suffix args.length args le_rfl cfgs "" false false cn y v rem h

/-- C10 witness: the pass-through of `["--yolo", "chat"]` is the suffix
`["chat"]`. -/
theorem parseFlags_remaining_is_suffix_witness :
    List.IsSuffix ["chat"] ["--yolo", "chat"] :=
  parseFlags_remaining_is_suffix ["--yolo", "chat"] emptyConfigs "" true false
    ["chat"] (by decide)

end Ccl
